import Mathlib

/-!
Shallow embedding of the Sky Sprint runner game (src/app/page.tsx).

All JavaScript numbers are modelled as rationals (`ℚ`): the arithmetic the
game performs is addition, subtraction, multiplication, division, `min`,
`max` and comparisons, all exact on the literals involved.  Calls to
`Math.random()` are modelled as explicit rational parameters.  The
`localStorage` cell holding the best score is modelled at the value level
(`stored : Option ℚ`) for writes, and at the string level for the
initialisation read (`jsParseInt10` / `loadBest` below).
-/

namespace SkySprint

/-- `WORLD_WIDTH` from page.tsx. -/
def WORLD_WIDTH : ℚ := 360

/-- `WORLD_HEIGHT` from page.tsx. -/
def WORLD_HEIGHT : ℚ := 640

/-- `GROUND_HEIGHT` from page.tsx. -/
def GROUND_HEIGHT : ℚ := 72

/-- `PLAYER_SIZE` from page.tsx. -/
def PLAYER_SIZE : ℚ := 42

/-- `GRAVITY` from page.tsx. -/
def GRAVITY : ℚ := 1100

/-- `JUMP_VELOCITY` from page.tsx. -/
def JUMP_VELOCITY : ℚ := -420

/-- `groundY = WORLD_HEIGHT - GROUND_HEIGHT` from page.tsx. -/
def groundY : ℚ := WORLD_HEIGHT - GROUND_HEIGHT

/-- The resting y of the player: `groundY - PLAYER_SIZE` (the value the code
snaps `player.y` to when landing). -/
def restY : ℚ := groundY - PLAYER_SIZE

/-- `type GameStatus = "ready" | "running" | "over"`. -/
inductive GameStatus where
  | ready
  | running
  | over
deriving DecidableEq, Repr

/-- `type Obstacle = { x; width; height; passed }`. -/
structure Obstacle where
  x : ℚ
  width : ℚ
  height : ℚ
  passed : Bool
deriving DecidableEq, Repr

/-- The `player` object of the game closure. -/
structure Player where
  x : ℚ
  y : ℚ
  vy : ℚ
  onGround : Bool
deriving DecidableEq, Repr

/-- The mutable game state held in the effect closure of `Game`:
`statusRef/scoreRef/bestRef`, the `obstacles`, `spawnTimer`, `speed`
locals, the `player` object, and the persisted best-score cell of
`localStorage` (value level). -/
structure GameState where
  status : GameStatus
  score : ℚ
  best : ℚ
  stored : Option ℚ
  speed : ℚ
  spawnTimer : ℚ
  obstacles : List Obstacle
  player : Player
deriving DecidableEq, Repr

/-- The three `Math.random()` draws a single tick can consume (obstacle
width, obstacle height, spawn-timer jitter). Each is a value in `[0, 1)`. -/
structure Rands where
  w : ℚ
  h : ℚ
  t : ℚ
deriving DecidableEq, Repr

/-- The effect of `updateBest` from page.tsx on the best ref and the
persisted cell: `if (value <= bestRef.current) return;` otherwise set the
best ref and write the value to `localStorage`. -/
def updateBestCell (best : ℚ) (stored : Option ℚ) (value : ℚ) : ℚ × Option ℚ :=
  if value ≤ best then (best, stored) else (value, some value)

/-- `updateBest` from page.tsx, lifted to the whole game state. -/
def updateBest (s : GameState) (value : ℚ) : GameState :=
  { s with best := (updateBestCell s.best s.stored value).1,
           stored := (updateBestCell s.best s.stored value).2 }

/-- `endGame` from page.tsx: only acts when status is `running`; sets status
to `over` and calls `updateBest(scoreRef.current)`. (The animation-frame
cancellation and the render call are presentation-only.) -/
def endGame (s : GameState) : GameState :=
  if s.status = GameStatus.running then
    updateBest { s with status := GameStatus.over } s.score
  else s

/-- The physics block of `updateGame` (page.tsx lines 242-251):
`vy += GRAVITY * delta; y += vy * delta;` then the ground clamp. -/
def physicsStep (p : Player) (delta : ℚ) : Player :=
  let vy := p.vy + GRAVITY * delta
  let y := p.y + vy * delta
  if y ≥ groundY - PLAYER_SIZE then
    { p with y := groundY - PLAYER_SIZE, vy := 0, onGround := true }
  else
    { p with y := y, vy := vy, onGround := false }

/-- The spawner block of `updateGame` (page.tsx lines 253-266):
decrement `spawnTimer`; when it reaches 0 or below, push a new obstacle at
`WORLD_WIDTH + width`, reset the timer from the difficulty boost, and bump
the speed (capped at 360). -/
def spawnStep (s : GameState) (delta : ℚ) (r : Rands) : GameState :=
  let timer := s.spawnTimer - delta
  if timer ≤ 0 then
    let width := 44 + r.w * 32
    let height := 60 + r.h * 90
    let difficultyBoost := min (1.2 + s.score * 0.015) 1.7
    { s with
      obstacles := s.obstacles ++ [⟨WORLD_WIDTH + width, width, height, false⟩],
      spawnTimer := 0.8 / difficultyBoost + r.t * 0.4,
      speed := min 360 (s.speed + 3) }
  else
    { s with spawnTimer := timer }

/-- One step of the `obstacles.forEach` body of `updateGame` (page.tsx lines
268-276): move the obstacle left by `speed * delta`; if it is un-passed and
its right edge is now left of the player's x, mark it passed, increment the
score and call `updateBest` with the new score.  The accumulator carries the
processed obstacles and the score / best / stored cells. -/
def moveScoreOne (px speed delta : ℚ)
    (acc : List Obstacle × ℚ × ℚ × Option ℚ) (o : Obstacle) :
    List Obstacle × ℚ × ℚ × Option ℚ :=
  let o1 : Obstacle := { o with x := o.x - speed * delta }
  if o1.passed = false ∧ o1.x + o1.width < px then
    let sc := acc.2.1 + 1
    let c := updateBestCell acc.2.2.1 acc.2.2.2 sc
    (acc.1 ++ [{ o1 with passed := true }], sc, c.1, c.2)
  else
    (acc.1 ++ [o1], acc.2.1, acc.2.2.1, acc.2.2.2)

/-- The whole `obstacles.forEach` of `updateGame` as a left fold. -/
def moveScore (px speed delta : ℚ) (obs : List Obstacle)
    (score best : ℚ) (stored : Option ℚ) :
    List Obstacle × ℚ × ℚ × Option ℚ :=
  obs.foldl (moveScoreOne px speed delta) ([], score, best, stored)

/-- The collision test of `updateGame` (page.tsx lines 280-284) for one
obstacle: `withinX && withinY`. -/
def hitB (px py : ℚ) (o : Obstacle) : Bool :=
  decide (px + PLAYER_SIZE - 6 > o.x ∧ px + 6 < o.x + o.width) &&
  decide (py + PLAYER_SIZE > groundY - o.height)

/-- `updateGame(delta)` from page.tsx: physics, spawner, obstacle
move/score pass, off-screen filter, collision test, and `endGame()` when a
hit is found. -/
def updateGame (s : GameState) (delta : ℚ) (r : Rands) : GameState :=
  let p := physicsStep s.player delta
  let s1 := spawnStep { s with player := p } delta r
  let m := moveScore p.x s1.speed delta s1.obstacles s1.score s1.best s1.stored
  let obs2 := m.1.filter (fun o => decide (o.x + o.width > -20))
  let s2 := { s1 with obstacles := obs2, score := m.2.1,
                      best := m.2.2.1, stored := m.2.2.2 }
  if obs2.any (hitB p.x p.y) then endGame s2 else s2

/-- The body of `loop(time)` from page.tsx: the raw frame delta (seconds) is
clamped to 0.035 and `updateGame` runs only while status is `running`. -/
def tick (s : GameState) (rawDelta : ℚ) (r : Rands) : GameState :=
  let delta := min 0.035 rawDelta
  if s.status = GameStatus.running then updateGame s delta r else s

/-- `jump` from page.tsx: a no-op unless status is `running` and the player
is on the ground; otherwise sets `vy := JUMP_VELOCITY` and clears
`onGround`. -/
def jump (s : GameState) : GameState :=
  if s.status = GameStatus.running then
    if s.player.onGround then
      { s with player := { s.player with vy := JUMP_VELOCITY, onGround := false } }
    else s
  else s

/-- `prepareGame` from page.tsx: reset the run-local state (obstacles,
timers, speed, player, score) and set status to `ready`.  Best score and the
persisted cell are untouched. -/
def prepareGame (s : GameState) : GameState :=
  { s with
    obstacles := [],
    spawnTimer := 1,
    speed := 190,
    player := { x := 74, y := groundY - PLAYER_SIZE, vy := 0, onGround := true },
    score := 0,
    status := GameStatus.ready }

/-- `startGame` from page.tsx: a no-op when already `running`, otherwise
sets status to `running`. -/
def startGame (s : GameState) : GameState :=
  if s.status = GameStatus.running then s else { s with status := GameStatus.running }

/-- The possible externally triggered state mutations of a session: an
animation-frame tick, a jump input, a reset (`prepareGame`) and a start
(`startGame`). -/
inductive Action where
  | frame (rawDelta : ℚ) (r : Rands)
  | jumpA
  | resetA
  | startA
deriving Repr

/-- Apply one action to the game state. -/
def applyAction (s : GameState) : Action → GameState
  | Action.frame rawDelta r => tick s rawDelta r
  | Action.jumpA => jump s
  | Action.resetA => prepareGame s
  | Action.startA => startGame s

/-- Run a sequence of actions from a state. -/
def runActions (s : GameState) (acts : List Action) : GameState :=
  acts.foldl applyAction s

/-- The action of one `forEach` iteration on a single obstacle, ignoring the
score cells: move it left by `speed * delta` and set `passed` when the moved
right edge is left of the player's x.  `moveScoreOne` acts as `moveMark` on
its obstacle (proved below). -/
def moveMark (px speed delta : ℚ) (o : Obstacle) : Obstacle :=
  { o with x := o.x - speed * delta,
           passed := o.passed || decide (o.x - speed * delta + o.width < px) }

/-- An obstacle is newly scored in this tick: it was un-passed and its moved
right edge is left of the player's x. -/
def passesNow (px speed delta : ℚ) (o : Obstacle) : Bool :=
  !o.passed && decide (o.x - speed * delta + o.width < px)

/-- The ground-plane invariant of the data model: the player's y never
exceeds the resting y (no ground penetration), and the grounded flag holds
iff y equals the resting y. -/
def groundInv (s : GameState) : Prop :=
  s.player.y ≤ restY ∧ (s.player.onGround = true ↔ s.player.y = restY)

/-- The weaker ground invariant: no ground penetration, and grounded implies
y is the resting y (the converse can fail right after a jump). -/
def weakGroundInv (s : GameState) : Prop :=
  s.player.y ≤ restY ∧ (s.player.onGround = true → s.player.y = restY)

/-- A zero draw for the random parameters (the spawner does not fire in the
concrete scenarios below, so the draws are irrelevant there). -/
def zeroRands : Rands := ⟨0, 0, 0⟩

/-- The scenario state of spec §8: a running game, the player at rest on the
ground at x = 74, and a single injected obstacle at x = 0, width 50,
height 80. -/
def c1state : GameState :=
  { status := GameStatus.running, score := 0, best := 0, stored := none,
    speed := 190, spawnTimer := 1,
    obstacles := [⟨0, 50, 80, false⟩],
    player := { x := 74, y := restY, vy := 0, onGround := true } }

/-- A running game with the player at rest on the ground and no obstacles. -/
def runningGroundState : GameState :=
  { status := GameStatus.running, score := 0, best := 0, stored := none,
    speed := 190, spawnTimer := 1, obstacles := [],
    player := { x := 74, y := restY, vy := 0, onGround := true } }

/-- A running state in which, on a tick of delta 0.01, the first obstacle is
newly scored and the second one collides with the player. -/
def scoreAndHitState : GameState :=
  { status := GameStatus.running, score := 0, best := 0, stored := none,
    speed := 190, spawnTimer := 1,
    obstacles := [⟨70, 5, 50, false⟩, ⟨90, 40, 80, false⟩],
    player := { x := 74, y := restY, vy := 0, onGround := true } }

/-- The whitespace characters skipped by `Number.parseInt` before the
number. -/
def isJsSpace (c : Char) : Bool :=
  c = ' ' || c = '\t' || c = '\n' || c = '\r'

/-- The numeric value of a list of decimal digit characters. -/
def digitsToNat (ds : List Char) : ℕ :=
  ds.foldl (fun n c => 10 * n + (c.toNat - 48)) 0

/-- Parse the longest decimal-digit run at the head of the characters;
`none` when there is no digit there (`parseInt` returns `NaN` then). -/
def leadingDigits (cs : List Char) : Option ℕ :=
  let ds := cs.takeWhile Char.isDigit
  if ds.isEmpty then none else some (digitsToNat ds)

/-- `Number.parseInt(str, 10)`: skip leading whitespace, an optional sign,
then the longest digit run; trailing characters are ignored; `none` models
`NaN`. -/
def jsParseInt10 (str : String) : Option ℤ :=
  match str.toList.dropWhile isJsSpace with
  | '-' :: rest => (leadingDigits rest).map (fun n => -(n : ℤ))
  | '+' :: rest => (leadingDigits rest).map (fun n => (n : ℤ))
  | cs => (leadingDigits cs).map (fun n => (n : ℤ))

/-- The initialisation read of the best score (page.tsx lines 58-65):
`Number.parseInt(localStorage.getItem("sky-sprint-best") ?? "0", 10)`, and
the parsed value replaces the default 0 only when it is not `NaN` and is
strictly positive. -/
def loadBest (stored : Option String) : ℤ :=
  match jsParseInt10 (stored.getD "0") with
  | none => 0
  | some v => if 0 < v then v else 0

/-- The state after the physics block and the spawner block of one
`updateGame` tick (the first two stages of the update). -/
def afterSpawn (s : GameState) (delta : ℚ) (r : Rands) : GameState :=
  spawnStep { s with player := physicsStep s.player delta } delta r

/-- A running state whose spawn countdown is already nearly elapsed, so the
next tick fires the spawner. -/
def spawnDueState : GameState := { runningGroundState with spawnTimer := 1/100 }

/-- A game-over state with the player at rest on the ground. -/
def overState : GameState := { runningGroundState with status := GameStatus.over }

/-- A running state with the player airborne. -/
def airborneState : GameState :=
  { runningGroundState with
    player := { runningGroundState.player with y := 400, vy := -100, onGround := false } }

/-- The obstacle the spawner pushes: left edge at `WORLD_WIDTH + width`. -/
def spawnObstacle (r : Rands) : Obstacle :=
  ⟨WORLD_WIDTH + (44 + r.w * 32), 44 + r.w * 32, 60 + r.h * 90, false⟩

/-- The world speed in force for the tick in which the spawner fires. -/
def spawnSpeed (s : GameState) : ℚ := min 360 (s.speed + 3)

end SkySprint

/-! ### Frame and characterisation lemmas -/

namespace SkySprint

lemma physicsStep_x (p : Player) (delta : ℚ) : (physicsStep p delta).x = p.x := by
  simp only [physicsStep]; split <;> rfl

lemma updateBest_player (s : GameState) (v : ℚ) : (updateBest s v).player = s.player := rfl

lemma updateBest_score (s : GameState) (v : ℚ) : (updateBest s v).score = s.score := rfl

lemma updateBest_best_mono (s : GameState) (v : ℚ) : s.best ≤ (updateBest s v).best := by
  simp only [updateBest, updateBestCell]
  split
  · exact le_refl _
  · exact le_of_not_le (by assumption)

lemma endGame_player (s : GameState) : (endGame s).player = s.player := by
  simp only [endGame]; split <;> rfl

lemma endGame_score (s : GameState) : (endGame s).score = s.score := by
  simp only [endGame]; split <;> rfl

lemma endGame_obstacles (s : GameState) : (endGame s).obstacles = s.obstacles := by
  simp only [endGame]; split <;> rfl

lemma endGame_speed (s : GameState) : (endGame s).speed = s.speed := by
  simp only [endGame]; split <;> rfl

lemma endGame_spawnTimer (s : GameState) : (endGame s).spawnTimer = s.spawnTimer := by
  simp only [endGame]; split <;> rfl

lemma endGame_best_mono (s : GameState) : s.best ≤ (endGame s).best := by
  simp only [endGame]
  split
  · exact updateBest_best_mono _ _
  · exact le_refl _

lemma endGame_score_le_best (s : GameState) (h : s.status = GameStatus.running) :
    (endGame s).score ≤ (endGame s).best := by
  simp only [endGame, h, if_pos]
  simp only [updateBest, updateBestCell]
  split
  · simpa using (by assumption : s.score ≤ s.best)
  · exact le_refl _

lemma moveScoreOne_cases (px speed delta : ℚ) (acc : List Obstacle × ℚ × ℚ × Option ℚ)
    (o : Obstacle) :
    moveScoreOne px speed delta acc o =
      (acc.1 ++ [moveMark px speed delta o],
       acc.2.1 + (if passesNow px speed delta o then 1 else 0),
       (moveScoreOne px speed delta acc o).2.2.1,
       (moveScoreOne px speed delta acc o).2.2.2) := by
  simp only [moveScoreOne, moveMark, passesNow]
  split
  · rename_i h
    simp only [h.1, decide_eq_true h.2]
    simp [Prod.ext_iff]
  · rename_i h
    rcases Bool.eq_false_or_eq_true o.passed with hp | hp
    · simp [hp, Prod.ext_iff]
    · have hx : ¬ (o.x - speed * delta + o.width < px) := by
        intro hlt; exact h ⟨hp, hlt⟩
      simp [hp, hx, Prod.ext_iff]

lemma moveScoreOne_best_mono (px speed delta : ℚ) (acc : List Obstacle × ℚ × ℚ × Option ℚ)
    (o : Obstacle) : acc.2.2.1 ≤ (moveScoreOne px speed delta acc o).2.2.1 := by
  simp only [moveScoreOne, updateBestCell]
  split
  · split
    · exact le_refl _
    · exact le_of_not_le (by assumption)
  · exact le_refl _

lemma foldl_moveScore_fst (px speed delta : ℚ) (obs : List Obstacle) :
    ∀ acc : List Obstacle × ℚ × ℚ × Option ℚ,
      (obs.foldl (moveScoreOne px speed delta) acc).1
        = acc.1 ++ obs.map (moveMark px speed delta) := by
  induction obs with
  | nil => intro acc; simp
  | cons o rest ih =>
    intro acc
    rw [List.foldl_cons, moveScoreOne_cases, ih]
    simp

lemma foldl_moveScore_score (px speed delta : ℚ) (obs : List Obstacle) :
    ∀ acc : List Obstacle × ℚ × ℚ × Option ℚ,
      (obs.foldl (moveScoreOne px speed delta) acc).2.1
        = acc.2.1 + (obs.countP (passesNow px speed delta) : ℚ) := by
  induction obs with
  | nil => intro acc; simp
  | cons o rest ih =>
    intro acc
    rw [List.foldl_cons, moveScoreOne_cases, ih]
    simp only [List.countP_cons]
    by_cases hp : passesNow px speed delta o = true
    · simp [hp]; ring
    · simp [hp]

lemma foldl_moveScore_best (px speed delta : ℚ) (obs : List Obstacle) :
    ∀ acc : List Obstacle × ℚ × ℚ × Option ℚ,
      acc.2.2.1 ≤ (obs.foldl (moveScoreOne px speed delta) acc).2.2.1 := by
  induction obs with
  | nil => intro acc; simp
  | cons o rest ih =>
    intro acc
    rw [List.foldl_cons]
    exact le_trans (moveScoreOne_best_mono px speed delta acc o) (ih _)

lemma moveScore_fst (px speed delta : ℚ) (obs : List Obstacle) (sc b : ℚ) (st : Option ℚ) :
    (moveScore px speed delta obs sc b st).1 = obs.map (moveMark px speed delta) := by
  simpa using foldl_moveScore_fst px speed delta obs ([], sc, b, st)

lemma moveScore_score (px speed delta : ℚ) (obs : List Obstacle) (sc b : ℚ) (st : Option ℚ) :
    (moveScore px speed delta obs sc b st).2.1
      = sc + (obs.countP (passesNow px speed delta) : ℚ) := by
  simpa using foldl_moveScore_score px speed delta obs ([], sc, b, st)

lemma moveScore_best (px speed delta : ℚ) (obs : List Obstacle) (sc b : ℚ) (st : Option ℚ) :
    b ≤ (moveScore px speed delta obs sc b st).2.2.1 := by
  simpa using foldl_moveScore_best px speed delta obs ([], sc, b, st)

lemma spawnStep_player (s : GameState) (delta : ℚ) (r : Rands) :
    (spawnStep s delta r).player = s.player := by
  simp only [spawnStep]; split <;> rfl

lemma spawnStep_status (s : GameState) (delta : ℚ) (r : Rands) :
    (spawnStep s delta r).status = s.status := by
  simp only [spawnStep]; split <;> rfl

lemma spawnStep_score (s : GameState) (delta : ℚ) (r : Rands) :
    (spawnStep s delta r).score = s.score := by
  simp only [spawnStep]; split <;> rfl

lemma spawnStep_best (s : GameState) (delta : ℚ) (r : Rands) :
    (spawnStep s delta r).best = s.best := by
  simp only [spawnStep]; split <;> rfl

lemma afterSpawn_player (s : GameState) (delta : ℚ) (r : Rands) :
    (afterSpawn s delta r).player = physicsStep s.player delta := by
  rw [afterSpawn, spawnStep_player]

lemma afterSpawn_status (s : GameState) (delta : ℚ) (r : Rands) :
    (afterSpawn s delta r).status = s.status := by
  rw [afterSpawn, spawnStep_status]

lemma afterSpawn_score (s : GameState) (delta : ℚ) (r : Rands) :
    (afterSpawn s delta r).score = s.score := by
  rw [afterSpawn, spawnStep_score]

lemma afterSpawn_best (s : GameState) (delta : ℚ) (r : Rands) :
    (afterSpawn s delta r).best = s.best := by
  rw [afterSpawn, spawnStep_best]

lemma updateGame_cases (s : GameState) (delta : ℚ) (r : Rands) :
    updateGame s delta r =
      (let p := physicsStep s.player delta
       let s1 := afterSpawn s delta r
       let m := moveScore p.x s1.speed delta s1.obstacles s1.score s1.best s1.stored
       let obs2 := m.1.filter (fun o => decide (o.x + o.width > -20))
       let s2 : GameState := { s1 with obstacles := obs2, score := m.2.1,
                                       best := m.2.2.1, stored := m.2.2.2 }
       if obs2.any (hitB p.x p.y) then endGame s2 else s2) := rfl

lemma updateGame_player (s : GameState) (delta : ℚ) (r : Rands) :
    (updateGame s delta r).player = physicsStep s.player delta := by
  rw [updateGame_cases]
  dsimp only
  split
  · rw [endGame_player]
    exact afterSpawn_player s delta r
  · exact afterSpawn_player s delta r

lemma updateGame_score (s : GameState) (delta : ℚ) (r : Rands) :
    (updateGame s delta r).score
      = s.score + (((afterSpawn s delta r).obstacles.countP
          (passesNow s.player.x (afterSpawn s delta r).speed delta)) : ℚ) := by
  rw [updateGame_cases]
  dsimp only
  have hsc : (moveScore (physicsStep s.player delta).x (afterSpawn s delta r).speed delta
      (afterSpawn s delta r).obstacles (afterSpawn s delta r).score
      (afterSpawn s delta r).best (afterSpawn s delta r).stored).2.1
      = s.score + (((afterSpawn s delta r).obstacles.countP
          (passesNow s.player.x (afterSpawn s delta r).speed delta)) : ℚ) := by
    rw [moveScore_score, afterSpawn_score, physicsStep_x]
  split
  · rw [endGame_score]; exact hsc
  · exact hsc

lemma updateGame_obstacles (s : GameState) (delta : ℚ) (r : Rands) :
    (updateGame s delta r).obstacles
      = ((afterSpawn s delta r).obstacles.map
            (moveMark s.player.x (afterSpawn s delta r).speed delta)).filter
          (fun o => decide (o.x + o.width > -20)) := by
  rw [updateGame_cases]
  dsimp only
  have hob : (moveScore (physicsStep s.player delta).x (afterSpawn s delta r).speed delta
      (afterSpawn s delta r).obstacles (afterSpawn s delta r).score
      (afterSpawn s delta r).best (afterSpawn s delta r).stored).1
      = (afterSpawn s delta r).obstacles.map
          (moveMark s.player.x (afterSpawn s delta r).speed delta) := by
    rw [moveScore_fst, physicsStep_x]
  split
  · rw [endGame_obstacles]; rw [hob]
  · rw [hob]

lemma updateGame_best_mono (s : GameState) (delta : ℚ) (r : Rands) :
    s.best ≤ (updateGame s delta r).best := by
  rw [updateGame_cases]
  dsimp only
  have hb : s.best ≤ (moveScore (physicsStep s.player delta).x (afterSpawn s delta r).speed
      delta (afterSpawn s delta r).obstacles (afterSpawn s delta r).score
      (afterSpawn s delta r).best (afterSpawn s delta r).stored).2.2.1 := by
    rw [← afterSpawn_best s delta r]
    exact moveScore_best _ _ _ _ _ _ _
  split
  · exact le_trans hb (endGame_best_mono _)
  · exact hb

lemma updateGame_speed (s : GameState) (delta : ℚ) (r : Rands) :
    (updateGame s delta r).speed = (afterSpawn s delta r).speed := by
  rw [updateGame_cases]
  dsimp only
  split
  · rw [endGame_speed]
  · rfl

lemma updateGame_spawnTimer (s : GameState) (delta : ℚ) (r : Rands) :
    (updateGame s delta r).spawnTimer = (afterSpawn s delta r).spawnTimer := by
  rw [updateGame_cases]
  dsimp only
  split
  · rw [endGame_spawnTimer]
  · rfl

lemma updateGame_over_score_le_best (s : GameState) (delta : ℚ) (r : Rands)
    (h : s.status = GameStatus.running) :
    (updateGame s delta r).status = GameStatus.over →
      (updateGame s delta r).score ≤ (updateGame s delta r).best := by
  rw [updateGame_cases]
  dsimp only
  split
  · intro _
    apply endGame_score_le_best
    show (afterSpawn s delta r).status = GameStatus.running
    rw [afterSpawn_status]; exact h
  · intro hov
    rw [show ({ afterSpawn s delta r with
          obstacles := _, score := _, best := _, stored := _ } : GameState).status
        = (afterSpawn s delta r).status from rfl, afterSpawn_status, h] at hov
    exact absurd hov (by decide)

end SkySprint

namespace SkySprint

lemma physicsStep_ground (p : Player) (delta : ℚ) :
    (physicsStep p delta).y ≤ restY ∧
      ((physicsStep p delta).onGround = true ↔ (physicsStep p delta).y = restY) := by
  simp only [physicsStep]
  split
  · exact ⟨le_refl _, by simp [restY]⟩
  · rename_i h
    push_neg at h
    refine ⟨le_of_lt h, ?_⟩
    simp only [Bool.false_eq_true, false_iff]
    exact ne_of_lt h

lemma updateGame_ground (s : GameState) (delta : ℚ) (r : Rands) :
    groundInv (updateGame s delta r) := by
  unfold groundInv
  rw [updateGame_player]
  exact physicsStep_ground s.player delta

lemma jump_player_y (s : GameState) : (jump s).player.y = s.player.y := by
  simp only [jump]; split_ifs <;> rfl

lemma jump_best (s : GameState) : (jump s).best = s.best := by
  simp only [jump]; split_ifs <;> rfl

lemma jump_speed (s : GameState) : (jump s).speed = s.speed := by
  simp only [jump]; split_ifs <;> rfl

lemma jump_weak (s : GameState) (h : weakGroundInv s) : weakGroundInv (jump s) := by
  unfold weakGroundInv at h ⊢
  simp only [jump]
  split_ifs with h1 h2
  · exact ⟨h.1, fun hc => absurd hc (by simp)⟩
  · exact h
  · exact h

lemma prepareGame_ground (s : GameState) : groundInv (prepareGame s) := by
  unfold groundInv prepareGame
  exact ⟨le_refl _, by simp [restY]⟩

lemma startGame_player (s : GameState) : (startGame s).player = s.player := by
  simp only [startGame]; split <;> rfl

lemma startGame_best (s : GameState) : (startGame s).best = s.best := by
  simp only [startGame]; split <;> rfl

lemma startGame_speed (s : GameState) : (startGame s).speed = s.speed := by
  simp only [startGame]; split <;> rfl

lemma groundInv_weak (s : GameState) (h : groundInv s) : weakGroundInv s :=
  ⟨h.1, fun hc => h.2.mp hc⟩

lemma tick_weak (s : GameState) (rawDelta : ℚ) (r : Rands) (h : weakGroundInv s) :
    weakGroundInv (tick s rawDelta r) := by
  simp only [tick]
  split
  · exact groundInv_weak _ (updateGame_ground _ _ _)
  · exact h

lemma applyAction_weak (s : GameState) (a : Action) (h : weakGroundInv s) :
    weakGroundInv (applyAction s a) := by
  cases a with
  | frame rawDelta r => exact tick_weak s rawDelta r h
  | jumpA => exact jump_weak s h
  | resetA => exact groundInv_weak _ (prepareGame_ground s)
  | startA =>
    unfold weakGroundInv at h ⊢
    rw [applyAction, startGame_player]
    exact h

lemma runActions_weak (acts : List Action) :
    ∀ s : GameState, weakGroundInv s → weakGroundInv (runActions s acts) := by
  induction acts with
  | nil => intro s h; exact h
  | cons a rest ih =>
    intro s h
    exact ih _ (applyAction_weak s a h)

lemma tick_best_mono (s : GameState) (rawDelta : ℚ) (r : Rands) :
    s.best ≤ (tick s rawDelta r).best := by
  simp only [tick]
  split
  · exact updateGame_best_mono _ _ _
  · exact le_refl _

lemma applyAction_best_mono (s : GameState) (a : Action) :
    s.best ≤ (applyAction s a).best := by
  cases a with
  | frame rawDelta r => exact tick_best_mono s rawDelta r
  | jumpA => rw [applyAction, jump_best]
  | resetA => exact le_refl _
  | startA => rw [applyAction, startGame_best]

lemma runActions_best_mono (acts : List Action) :
    ∀ s : GameState, s.best ≤ (runActions s acts).best := by
  induction acts with
  | nil => intro s; exact le_refl _
  | cons a rest ih =>
    intro s
    exact le_trans (applyAction_best_mono s a) (ih _)

end SkySprint

namespace SkySprint

lemma spawnStep_speed_le (s : GameState) (delta : ℚ) (r : Rands) (h : s.speed ≤ 360) :
    (spawnStep s delta r).speed ≤ 360 := by
  simp only [spawnStep]
  split
  · exact min_le_left _ _
  · exact h

lemma updateGame_speed_le (s : GameState) (delta : ℚ) (r : Rands) (h : s.speed ≤ 360) :
    (updateGame s delta r).speed ≤ 360 := by
  rw [updateGame_speed]
  exact spawnStep_speed_le _ _ _ h

lemma applyAction_speed_le (s : GameState) (a : Action) (h : s.speed ≤ 360) :
    (applyAction s a).speed ≤ 360 := by
  cases a with
  | frame rawDelta r =>
    show (tick s rawDelta r).speed ≤ 360
    simp only [tick]
    split
    · exact updateGame_speed_le _ _ _ h
    · exact h
  | jumpA => rw [applyAction, jump_speed]; exact h
  | resetA => show (190 : ℚ) ≤ 360; norm_num
  | startA => rw [applyAction, startGame_speed]; exact h

lemma runActions_speed_le (acts : List Action) :
    ∀ s : GameState, s.speed ≤ 360 → (runActions s acts).speed ≤ 360 := by
  induction acts with
  | nil => intro s h; exact h
  | cons a rest ih =>
    intro s h
    exact ih _ (applyAction_speed_le s a h)

lemma spawnStep_fire_speed (s : GameState) (delta : ℚ) (r : Rands)
    (h : s.spawnTimer - delta ≤ 0) :
    (spawnStep s delta r).speed = min 360 (s.speed + 3) := by
  simp only [spawnStep, if_pos h]

lemma spawnStep_fire_timer (s : GameState) (delta : ℚ) (r : Rands)
    (h : s.spawnTimer - delta ≤ 0) :
    (spawnStep s delta r).spawnTimer
      = 0.8 / min (1.2 + s.score * 0.015) 1.7 + r.t * 0.4 := by
  simp only [spawnStep, if_pos h]

lemma spawnStep_fire_obstacles (s : GameState) (delta : ℚ) (r : Rands)
    (h : s.spawnTimer - delta ≤ 0) :
    (spawnStep s delta r).obstacles
      = s.obstacles ++ [⟨WORLD_WIDTH + (44 + r.w * 32), 44 + r.w * 32,
          60 + r.h * 90, false⟩] := by
  simp only [spawnStep, if_pos h]

lemma spawnTimer_lower (score t : ℚ) (hs : 0 ≤ score) (ht : 0 ≤ t) :
    (8 : ℚ) / 17 ≤ 0.8 / min (1.2 + score * 0.015) 1.7 + t * 0.4 := by
  have hb1 : (1.2 : ℚ) ≤ min (1.2 + score * 0.015) 1.7 := by
    apply le_min
    · nlinarith
    · norm_num
  have hb2 : min (1.2 + score * 0.015) 1.7 ≤ 1.7 := min_le_right _ _
  have hbpos : (0 : ℚ) < min (1.2 + score * 0.015) 1.7 :=
    lt_of_lt_of_le (by norm_num) hb1
  have h1 : (8 : ℚ) / 17 ≤ 0.8 / min (1.2 + score * 0.015) 1.7 := by
    rw [div_le_div_iff₀ (by norm_num) hbpos]
    nlinarith
  nlinarith [mul_nonneg ht (by norm_num : (0 : ℚ) ≤ 0.4)]

end SkySprint

/-! ### Claim theorems -/

namespace SkySprint

/-- C1 counterexample: in the spec §8 scenario (single obstacle at x = 0,
width 50, height 80; player at rest on the ground at x = 74) the overlap
check reports NO collision, the status does not become `over`, and the
score does change (the obstacle is scored). -/
theorem c1_scenario_refuted :
    hitB c1state.player.x c1state.player.y ⟨0, 50, 80, false⟩ = false
    ∧ (updateGame c1state 0.016 zeroRands).status ≠ GameStatus.over
    ∧ (updateGame c1state 0.016 zeroRands).score ≠ c1state.score := by
  norm_num [updateGame, physicsStep, spawnStep, moveScore, moveScoreOne, hitB, endGame,
    updateBest, updateBestCell, c1state, zeroRands, restY, groundY, WORLD_WIDTH,
    WORLD_HEIGHT, GROUND_HEIGHT, PLAYER_SIZE, GRAVITY, List.foldl, List.filter, List.any]
  decide

/-- C1 amended: in that scenario the obstacle's right edge (50) is already
left of the player's x (74), so the tick marks it passed and increments the
score to 1 (best updated to 1); no collision is reported and the status
stays `running`. -/
theorem c1_scenario_actual :
    (updateGame c1state 0.016 zeroRands).status = GameStatus.running
    ∧ (updateGame c1state 0.016 zeroRands).score = 1
    ∧ (updateGame c1state 0.016 zeroRands).best = 1
    ∧ (updateGame c1state 0.016 zeroRands).obstacles = [⟨-76/25, 50, 80, true⟩]
    ∧ (updateGame c1state 0.016 zeroRands).player
        = { x := 74, y := restY, vy := 0, onGround := true } := by
  norm_num [updateGame, physicsStep, spawnStep, moveScore, moveScoreOne, hitB, endGame,
    updateBest, updateBestCell, c1state, zeroRands, restY, groundY, WORLD_WIDTH,
    WORLD_HEIGHT, GROUND_HEIGHT, PLAYER_SIZE, GRAVITY, List.foldl, List.filter, List.any,
    Obstacle.mk.injEq, Player.mk.injEq]

end SkySprint

namespace SkySprint

/-- C2 counterexample: from a running state with the player at rest on the
ground (which satisfies the full ground invariant), a jump leaves y at the
resting y while clearing the grounded flag, so "grounded iff y = resting y"
is not preserved by the jump operation. -/
theorem c2_jump_breaks_iff :
    groundInv runningGroundState ∧ ¬ groundInv (jump runningGroundState) := by
  constructor
  · exact ⟨le_refl _, by simp [runningGroundState]⟩
  · intro h
    have hy : (jump runningGroundState).player.y = restY := rfl
    have hg : (jump runningGroundState).player.onGround = false := rfl
    exact absurd (h.2.mpr hy) (by rw [hg]; decide)

/-- C2 amended: every physics tick (re-)establishes the full ground
invariant (y ≤ resting y, and grounded iff y = resting y); jump and every
other operation preserve the weaker invariant (y ≤ resting y, and grounded
implies y = resting y), but jump can leave y at the resting y with grounded
false until the next tick. -/
theorem c2_ground_invariant :
    (∀ (s : GameState) (delta : ℚ) (r : Rands), groundInv (updateGame s delta r))
    ∧ (∀ s : GameState, weakGroundInv s → weakGroundInv (jump s))
    ∧ (∀ s : GameState, groundInv (prepareGame s))
    ∧ (∀ (acts : List Action) (s : GameState),
        weakGroundInv s → weakGroundInv (runActions s acts)) :=
  ⟨updateGame_ground, jump_weak, prepareGame_ground,
   fun acts s h => runActions_weak acts s h⟩

theorem c2_ground_invariant_witness :
    groundInv (updateGame runningGroundState 0.016 zeroRands)
    ∧ weakGroundInv (jump runningGroundState) :=
  ⟨c2_ground_invariant.1 runningGroundState 0.016 zeroRands,
   c2_ground_invariant.2.1 runningGroundState ⟨le_refl _, fun _ => rfl⟩⟩

/-- C3: in a tick that both scores at least one obstacle and ends the run,
the score increment is retained in the final state and the best score
reflects it (scoring runs before the collision test, and `endGame` folds the
final score into the best). -/
theorem c3_score_retained_on_collision (s : GameState) (delta : ℚ) (r : Rands)
    (hrun : s.status = GameStatus.running)
    (hpass : (afterSpawn s delta r).obstacles.any
        (passesNow s.player.x (afterSpawn s delta r).speed delta) = true)
    (hover : (updateGame s delta r).status = GameStatus.over) :
    s.score + 1 ≤ (updateGame s delta r).score
    ∧ (updateGame s delta r).score ≤ (updateGame s delta r).best := by
  constructor
  · rw [updateGame_score]
    have hc : 0 < ((afterSpawn s delta r).obstacles.countP
        (passesNow s.player.x (afterSpawn s delta r).speed delta)) := by
      rw [List.any_eq_true] at hpass
      obtain ⟨o, ho, hpo⟩ := hpass
      exact List.countP_pos_iff.mpr ⟨o, ho, hpo⟩
    have : (1 : ℚ) ≤ (((afterSpawn s delta r).obstacles.countP
        (passesNow s.player.x (afterSpawn s delta r).speed delta)) : ℚ) := by
      exact_mod_cast hc
    linarith
  · exact updateGame_over_score_le_best s delta r hrun hover

theorem c3_witness :
    scoreAndHitState.score + 1 ≤ (updateGame scoreAndHitState 0.01 zeroRands).score
    ∧ (updateGame scoreAndHitState 0.01 zeroRands).score
        ≤ (updateGame scoreAndHitState 0.01 zeroRands).best :=
  c3_score_retained_on_collision scoreAndHitState 0.01 zeroRands rfl
    (by norm_num [afterSpawn, spawnStep, physicsStep, passesNow, scoreAndHitState,
      zeroRands, restY, groundY, WORLD_HEIGHT, GROUND_HEIGHT, PLAYER_SIZE, GRAVITY,
      List.any])
    (by norm_num [updateGame, physicsStep, spawnStep, moveScore, moveScoreOne, hitB,
      endGame, updateBest, updateBestCell, scoreAndHitState, zeroRands, restY, groundY,
      WORLD_WIDTH, WORLD_HEIGHT, GROUND_HEIGHT, PLAYER_SIZE, GRAVITY, List.foldl,
      List.filter, List.any])

end SkySprint

namespace SkySprint

/-- C4: in every tick the score grows by exactly the number of un-passed
obstacles whose (moved) right edge crossed the player's x; the surviving
obstacle list is the moved list with exactly those marked passed (so a
passed obstacle stays passed and is never counted again); and the score
stays non-negative. -/
theorem c4_score_exactly_once (s : GameState) (delta : ℚ) (r : Rands) :
    (updateGame s delta r).score
      = s.score + (((afterSpawn s delta r).obstacles.countP
          (passesNow s.player.x (afterSpawn s delta r).speed delta)) : ℚ)
    ∧ (updateGame s delta r).obstacles
      = ((afterSpawn s delta r).obstacles.map
            (moveMark s.player.x (afterSpawn s delta r).speed delta)).filter
          (fun o => decide (o.x + o.width > -20))
    ∧ (∀ (px speed d : ℚ) (o : Obstacle), o.passed = true →
        (moveMark px speed d o).passed = true ∧ passesNow px speed d o = false)
    ∧ (0 ≤ s.score → 0 ≤ (updateGame s delta r).score) := by
  refine ⟨updateGame_score s delta r, updateGame_obstacles s delta r, ?_, ?_⟩
  · intro px speed d o hp
    constructor
    · simp [moveMark, hp]
    · simp [passesNow, hp]
  · intro h0
    rw [updateGame_score]
    have : (0 : ℚ) ≤ (((afterSpawn s delta r).obstacles.countP
        (passesNow s.player.x (afterSpawn s delta r).speed delta)) : ℚ) := by
      positivity
    linarith

theorem c4_witness :
    (0 : ℚ) ≤ (updateGame runningGroundState 0.016 zeroRands).score
    ∧ (moveMark 74 190 0.016 ⟨10, 5, 50, true⟩).passed = true :=
  ⟨(c4_score_exactly_once runningGroundState 0.016 zeroRands).2.2.2 (le_refl 0),
   ((c4_score_exactly_once runningGroundState 0.016 zeroRands).2.2.1
      74 190 0.016 ⟨10, 5, 50, true⟩ rfl).1⟩

/-- C5: `updateBest` with a value less than or equal to the current best is
a complete no-op (neither the in-memory best nor the persisted cell
changes); a strictly larger value both replaces the best and is written to
the persisted cell; and the best is monotonically non-decreasing under any
sequence of ticks, jumps, resets and starts. -/
theorem c5_best_monotone :
    (∀ (s : GameState) (v : ℚ), v ≤ s.best → updateBest s v = s)
    ∧ (∀ (s : GameState) (v : ℚ), s.best < v →
        (updateBest s v).best = v ∧ (updateBest s v).stored = some v)
    ∧ (∀ (acts : List Action) (s : GameState), s.best ≤ (runActions s acts).best) := by
  refine ⟨?_, ?_, fun acts s => runActions_best_mono acts s⟩
  · intro s v h
    simp [updateBest, updateBestCell, if_pos h]
  · intro s v h
    constructor <;> simp [updateBest, updateBestCell, if_neg (not_le.mpr h)]

theorem c5_witness :
    updateBest runningGroundState 0 = runningGroundState
    ∧ (updateBest runningGroundState 5).best = 5
    ∧ (updateBest runningGroundState 5).stored = some 5
    ∧ runningGroundState.best
        ≤ (runActions runningGroundState [Action.jumpA, Action.resetA]).best :=
  ⟨c5_best_monotone.1 runningGroundState 0 (le_refl 0),
   (c5_best_monotone.2.1 runningGroundState 5 (by norm_num [runningGroundState])).1,
   (c5_best_monotone.2.1 runningGroundState 5 (by norm_num [runningGroundState])).2,
   c5_best_monotone.2.2 [Action.jumpA, Action.resetA] runningGroundState⟩

/-- C6: the world speed is bumped by exactly 3 and capped at 360 on each
spawn, and stays at most 360 under any sequence of actions once it is at
most 360; on a spawn the timer is reset to at least 8/17 of a second
(0.8 divided by the difficulty ceiling 1.7), a positive lower bound on the
spawn interval. -/
theorem c6_speed_cap_and_interval :
    (∀ (acts : List Action) (s : GameState),
        s.speed ≤ 360 → (runActions s acts).speed ≤ 360)
    ∧ (∀ (s : GameState) (delta : ℚ) (r : Rands), s.spawnTimer - delta ≤ 0 →
        (updateGame s delta r).speed = min 360 (s.speed + 3))
    ∧ (∀ (s : GameState) (delta : ℚ) (r : Rands), s.spawnTimer - delta ≤ 0 →
        0 ≤ s.score → 0 ≤ r.t →
        (8 : ℚ) / 17 ≤ (updateGame s delta r).spawnTimer) := by
  refine ⟨fun acts s h => runActions_speed_le acts s h, ?_, ?_⟩
  · intro s delta r h
    rw [updateGame_speed, afterSpawn]
    exact spawnStep_fire_speed _ _ _ h
  · intro s delta r h hs ht
    rw [updateGame_spawnTimer, afterSpawn,
      spawnStep_fire_timer { s with player := physicsStep s.player delta } delta r h]
    exact spawnTimer_lower s.score r.t hs ht

theorem c6_witness :
    (runActions runningGroundState [Action.startA]).speed ≤ 360
    ∧ (updateGame spawnDueState 0.02 zeroRands).speed = min 360 (spawnDueState.speed + 3)
    ∧ (8 : ℚ) / 17 ≤ (updateGame spawnDueState 0.02 zeroRands).spawnTimer :=
  ⟨c6_speed_cap_and_interval.1 [Action.startA] runningGroundState
      (by norm_num [runningGroundState]),
   c6_speed_cap_and_interval.2.1 spawnDueState 0.02 zeroRands
      (by norm_num [spawnDueState, runningGroundState]),
   c6_speed_cap_and_interval.2.2 spawnDueState 0.02 zeroRands
      (by norm_num [spawnDueState, runningGroundState]) (le_refl 0) (le_refl 0)⟩

end SkySprint

namespace SkySprint

/-- C7: on a running tick the raw frame delta is clamped to at most 0.035 s;
the velocity gains `GRAVITY * delta`, the position gains the new velocity
times delta, and the projected position is clamped to the ground: at or
below the resting y it is snapped there with velocity zeroed and grounded
set, otherwise grounded is cleared. -/
theorem c7_physics_tick (s : GameState) (rawDelta : ℚ) (r : Rands)
    (hrun : s.status = GameStatus.running) :
    min 0.035 rawDelta ≤ 0.035
    ∧ (s.player.y + (s.player.vy + GRAVITY * min 0.035 rawDelta) * min 0.035 rawDelta
          ≥ restY →
        (tick s rawDelta r).player
          = { s.player with y := restY, vy := 0, onGround := true })
    ∧ (s.player.y + (s.player.vy + GRAVITY * min 0.035 rawDelta) * min 0.035 rawDelta
          < restY →
        (tick s rawDelta r).player
          = { s.player with
                y := s.player.y
                  + (s.player.vy + GRAVITY * min 0.035 rawDelta) * min 0.035 rawDelta,
                vy := s.player.vy + GRAVITY * min 0.035 rawDelta,
                onGround := false }) := by
  have hp : (tick s rawDelta r).player = physicsStep s.player (min 0.035 rawDelta) := by
    simp only [tick, hrun, if_pos]
    exact updateGame_player s (min 0.035 rawDelta) r
  refine ⟨min_le_left _ _, ?_, ?_⟩
  · intro h
    have h' : s.player.y + (s.player.vy + GRAVITY * min 0.035 rawDelta) * min 0.035 rawDelta
        ≥ groundY - PLAYER_SIZE := h
    rw [hp]
    simp only [physicsStep]
    rw [if_pos h']
    rfl
  · intro h
    have h' : ¬ (s.player.y + (s.player.vy + GRAVITY * min 0.035 rawDelta) * min 0.035 rawDelta
        ≥ groundY - PLAYER_SIZE) := not_le.mpr h
    rw [hp]
    simp only [physicsStep]
    rw [if_neg h']

theorem c7_witness :
    min (0.035 : ℚ) 0.016 ≤ 0.035
    ∧ (tick runningGroundState 0.016 zeroRands).player
        = { runningGroundState.player with y := restY, vy := 0, onGround := true } :=
  ⟨(c7_physics_tick runningGroundState 0.016 zeroRands rfl).1,
   (c7_physics_tick runningGroundState 0.016 zeroRands rfl).2.1
     (by norm_num [runningGroundState, restY, groundY, WORLD_HEIGHT, GROUND_HEIGHT,
        PLAYER_SIZE, GRAVITY])⟩

end SkySprint

namespace SkySprint

/-- C8: a jump input sets the vertical velocity to `JUMP_VELOCITY` and
clears the grounded flag exactly when the status is `running` and the
player is grounded; in any other situation the state is unchanged. -/
theorem c8_jump_guard (s : GameState) :
    (s.status = GameStatus.running → s.player.onGround = true →
      jump s = { s with player :=
        { s.player with vy := JUMP_VELOCITY, onGround := false } })
    ∧ (s.status ≠ GameStatus.running → jump s = s)
    ∧ (s.player.onGround = false → jump s = s) := by
  refine ⟨?_, ?_, ?_⟩
  · intro h1 h2
    rw [jump, if_pos h1, if_pos h2]
  · intro h
    rw [jump, if_neg h]
  · intro h
    rw [jump]
    split
    · rw [if_neg (by simp [h])]
    · rfl

theorem c8_jump_guard_witness :
    jump runningGroundState = { runningGroundState with
      player := { runningGroundState.player with vy := JUMP_VELOCITY, onGround := false } }
    ∧ jump overState = overState
    ∧ jump airborneState = airborneState :=
  ⟨(c8_jump_guard runningGroundState).1 rfl rfl,
   (c8_jump_guard overState).2.1 (by decide),
   (c8_jump_guard airborneState).2.2 rfl⟩

/-- C9: reading the persisted best score at initialisation yields 0 when the
stored value is missing or fails to parse as an integer, and yields the
parsed value exactly when it parses to a strictly positive integer (a
non-positive parse also falls back to 0). -/
theorem c9_load_best :
    loadBest none = 0
    ∧ (∀ str : String, jsParseInt10 str = none → loadBest (some str) = 0)
    ∧ (∀ (str : String) (v : ℤ), jsParseInt10 str = some v → 0 < v →
        loadBest (some str) = v)
    ∧ (∀ (str : String) (v : ℤ), jsParseInt10 str = some v → v ≤ 0 →
        loadBest (some str) = 0) := by
  refine ⟨by decide, ?_, ?_, ?_⟩
  · intro str h
    simp [loadBest, h]
  · intro str v h hv
    simp [loadBest, h, if_pos hv]
  · intro str v h hv
    simp [loadBest, h, if_neg (not_lt.mpr hv)]

theorem c9_load_best_witness :
    loadBest (some "abc") = 0
    ∧ loadBest (some "42") = 42
    ∧ loadBest (some "-7") = 0 :=
  ⟨c9_load_best.2.1 "abc" (by decide),
   c9_load_best.2.2.1 "42" 42 (by decide) (by decide),
   c9_load_best.2.2.2 "-7" (-7) (by decide) (by decide)⟩

end SkySprint

namespace SkySprint

/-- C10: on a spawning tick the new obstacle is created strictly off the
right edge of the world; its leftward movement in that same tick is at most
360·0.035 = 12.6 world units, so after moving it is still far right of the
player: it is not marked passed, not counted by the scorer, cannot satisfy
the overlap test for any player height, and survives into the post-tick
obstacle list as its (un-passed) last element. -/
theorem c10_spawn_off_screen (s : GameState) (delta : ℚ) (r : Rands)
    (hx : s.player.x = 74)
    (hfire : s.spawnTimer - delta ≤ 0)
    (hd0 : 0 ≤ delta) (hd : delta ≤ 0.035)
    (hw : 0 ≤ r.w) :
    WORLD_WIDTH < (spawnObstacle r).x
    ∧ spawnSpeed s * delta ≤ 12.6
    ∧ (moveMark s.player.x (spawnSpeed s) delta (spawnObstacle r)).passed = false
    ∧ passesNow s.player.x (spawnSpeed s) delta (spawnObstacle r) = false
    ∧ (∀ py, hitB s.player.x py
        (moveMark s.player.x (spawnSpeed s) delta (spawnObstacle r)) = false)
    ∧ ∃ pre, (updateGame s delta r).obstacles
        = pre ++ [moveMark s.player.x (spawnSpeed s) delta (spawnObstacle r)] := by
  have hsle : spawnSpeed s ≤ 360 := min_le_left _ _
  have hsd : spawnSpeed s * delta ≤ 12.6 := by
    calc spawnSpeed s * delta ≤ 360 * delta := by
          exact mul_le_mul_of_nonneg_right hsle hd0
      _ ≤ 12.6 := by linarith
  have hxlow : (391.4 : ℚ) ≤ (spawnObstacle r).x - spawnSpeed s * delta := by
    simp only [spawnObstacle, WORLD_WIDTH]
    nlinarith
  have hnotpass : ¬ ((spawnObstacle r).x - spawnSpeed s * delta + (spawnObstacle r).width
      < s.player.x) := by
    rw [hx]
    simp only [spawnObstacle] at hxlow ⊢
    nlinarith
  have hnp2 : s.player.x
      ≤ WORLD_WIDTH + (44 + r.w * 32) - spawnSpeed s * delta + (44 + r.w * 32) := by
    simpa [spawnObstacle] using not_lt.mp hnotpass
  have hnp3 : ¬ (WORLD_WIDTH + (44 + r.w * 32) - spawnSpeed s * delta + (44 + r.w * 32)
      < s.player.x) := not_lt.mpr hnp2
  refine ⟨?_, hsd, ?_, ?_, ?_, ?_⟩
  · simp only [spawnObstacle, WORLD_WIDTH]
    nlinarith
  · simp [moveMark, spawnObstacle, hnp3]
  · simp [passesNow, spawnObstacle, hnp3]
  · intro py
    have h1 : ¬ (s.player.x + PLAYER_SIZE - 6
        > (moveMark s.player.x (spawnSpeed s) delta (spawnObstacle r)).x
        ∧ s.player.x + 6
          < (moveMark s.player.x (spawnSpeed s) delta (spawnObstacle r)).x
            + (moveMark s.player.x (spawnSpeed s) delta (spawnObstacle r)).width) := by
      rw [hx]
      intro hc
      have := hc.1
      simp only [moveMark, PLAYER_SIZE] at this
      nlinarith
    rw [hitB, decide_eq_false h1, Bool.false_and]
  · rw [updateGame_obstacles]
    have hobs : (afterSpawn s delta r).obstacles = s.obstacles ++ [spawnObstacle r] := by
      rw [afterSpawn]
      exact spawnStep_fire_obstacles { s with player := physicsStep s.player delta }
        delta r hfire
    have hspd : (afterSpawn s delta r).speed = spawnSpeed s := by
      rw [afterSpawn]
      exact spawnStep_fire_speed { s with player := physicsStep s.player delta }
        delta r hfire
    rw [hobs, hspd, List.map_append, List.filter_append]
    refine ⟨(s.obstacles.map (moveMark s.player.x (spawnSpeed s) delta)).filter
      (fun o => decide (o.x + o.width > -20)), ?_⟩
    have hkeep : decide ((moveMark s.player.x (spawnSpeed s) delta (spawnObstacle r)).x
        + (moveMark s.player.x (spawnSpeed s) delta (spawnObstacle r)).width > -20)
        = true := by
      apply decide_eq_true
      simp only [moveMark, spawnObstacle] at hxlow ⊢
      nlinarith
    simp [hkeep]

theorem c10_spawn_off_screen_witness :
    WORLD_WIDTH < (spawnObstacle zeroRands).x
    ∧ spawnSpeed spawnDueState * (0.02 : ℚ) ≤ 12.6
    ∧ (moveMark spawnDueState.player.x (spawnSpeed spawnDueState) 0.02
        (spawnObstacle zeroRands)).passed = false
    ∧ passesNow spawnDueState.player.x (spawnSpeed spawnDueState) 0.02
        (spawnObstacle zeroRands) = false
    ∧ hitB spawnDueState.player.x 526 (moveMark spawnDueState.player.x
        (spawnSpeed spawnDueState) 0.02 (spawnObstacle zeroRands)) = false
    ∧ ∃ pre, (updateGame spawnDueState 0.02 zeroRands).obstacles
        = pre ++ [moveMark spawnDueState.player.x (spawnSpeed spawnDueState) 0.02
            (spawnObstacle zeroRands)] := by
  have h := c10_spawn_off_screen spawnDueState 0.02 zeroRands rfl
    (by norm_num [spawnDueState, runningGroundState]) (by norm_num) (by norm_num)
    (le_refl 0)
  exact ⟨h.1, h.2.1, h.2.2.1, h.2.2.2.1, h.2.2.2.2.1 526, h.2.2.2.2.2⟩

end SkySprint
